import Mathlib

/-
Verification development for the silent-sound doorbell agent (device_boot.py).

The embedding models the agent's pure decision logic as Lean functions over
explicit inputs:
  * JSON values decoded from server responses and the settings file are the
    inductive type J below.  Python attribute errors raised by calling .get on
    a non-dict value are modelled explicitly.
  * Network interactions are inputs: a Resp value describes what one HTTP
    request attempt produced (connection error, status code, decoded body).
  * Wall-clock readings (time.time()) are rational-number inputs.
  * Side effects (settings writes, actuator commands, server notifications,
    thread starts) are returned as explicit data.
-/

namespace DeviceBoot

/-- JSON values, as produced by response.json() and json.load. -/
inductive J where
  | null
  | bool (b : Bool)
  | num (n : ℤ)
  | str (s : String)
  | arr (xs : List J)
  | obj (fields : List (String × J))

mutual

/-- Structural equality of JSON values; models the Python == / != comparison
used on decoded JSON values (for example the version comparison). -/
def J.beq : J → J → Bool
  | .null, .null => true
  | .bool a, .bool b => a == b
  | .num a, .num b => a == b
  | .str a, .str b => a == b
  | .arr xs, .arr ys => J.beqL xs ys
  | .obj fs, .obj gs => J.beqFL fs gs
  | _, _ => false

/-- Elementwise J.beq on lists. -/
def J.beqL : List J → List J → Bool
  | [], [] => true
  | x :: xs, y :: ys => J.beq x y && J.beqL xs ys
  | _, _ => false

/-- Elementwise J.beq on association lists. -/
def J.beqFL : List (String × J) → List (String × J) → Bool
  | [], [] => true
  | (k, x) :: xs, (l, y) :: ys => k == l && J.beq x y && J.beqFL xs ys
  | _, _ => false

end

/-- Python truthiness of a decoded JSON value: None, False, 0, empty string
and empty containers are falsy, everything else truthy. -/
def pyTruthy : J → Bool
  | .null => false
  | .bool b => b
  | .num n => n != 0
  | .str s => s != ""
  | .arr xs => !xs.isEmpty
  | .obj fs => !fs.isEmpty

/-- Truthiness of a Python value that may be None (dict.get with no default
returns None for a missing key, and None is falsy). -/
def pyTruthyO : Option J → Bool
  | none => false
  | some v => pyTruthy v

/-- Python == on two values that may be None. -/
def beqO : Option J → Option J → Bool
  | none, none => true
  | some a, some b => J.beq a b
  | _, _ => false

/-- Field lookup in a JSON object, the semantics of dict.get(key). -/
def J.lookupF (k : String) : List (String × J) → Option J
  | [] => none
  | (k2, v) :: rest => if k2 = k then some v else J.lookupF k rest

/-- Dictionary assignment d[key] = value: replaces the value of an existing
key in place, otherwise appends the binding at the end (Python dict order). -/
def setKey : List (String × J) → String → J → List (String × J)
  | [], k, v => [(k, v)]
  | (k2, w) :: rest, k, v =>
    if k2 = k then (k, v) :: rest else (k2, w) :: setKey rest k v

/-- DEFAULT_SETTINGS from the source: device_type_id 1, version "0.1". -/
def DEFAULT_SETTINGS : List (String × J) :=
  [("device_type_id", J.num 1), ("version", J.str "0.1")]

/-- What one HTTP request attempt produced, from the caller's point of view:
a requests.RequestException (connection failure or timeout), or an HTTP
response with a status code and a body (none when the body fails to decode
as JSON). -/
inductive Resp where
  | reqError
  | httpResp (status : ℕ) (body : Option J)

/-- Outcome of one send_heartbeat call.  ok saved: the function returned
normally, saved being the settings object written by save_settings if any.
exit: trigger_update ran; it always ends the process via sys.exit.
raised: an exception escaped the function (it is not caught by the two
except clauses) and aborts the enclosing loop. -/
inductive HBResult where
  | ok (saved : Option J)
  | exit
  | raised

/-- True exactly on the exit outcome. -/
def HBResult.isExit : HBResult → Bool
  | .exit => true
  | _ => false

/-- data.get("device_type", an empty dict) on the decoded heartbeat body. -/
def device_type_of (dfs : List (String × J)) : J :=
  (J.lookupF "device_type" dfs).getD (J.obj [])

/-- The update decision on line 136 of the source:
server_version and local_version and server_version != local_version,
with Python truthiness and Python equality. -/
def updateCond (sv lv : Option J) : Bool :=
  pyTruthyO sv && pyTruthyO lv && !(beqO sv lv)

/-- send_heartbeat, lines 119-149 of the source, as a function of the
settings record currently on disk and of what the heartbeat POST produced.
raise_for_status raises HTTPError (a RequestException, caught) for any
status of 400 or more; an undecodable body raises a caught JSONDecodeError;
calling .get on a non-dict settings record, a non-dict body, or a non-dict
device_type value raises an AttributeError that no except clause catches. -/
def send_heartbeat (settings : J) (resp : Resp) : HBResult :=
  match resp with
  | .reqError => .ok none
  | .httpResp status body =>
    if 400 ≤ status then .ok none
    else
      match body with
      | none => .ok none
      | some data =>
        match settings with
        | .obj sfs =>
          let lv := J.lookupF "version" sfs
          match data with
          | .obj dfs =>
            match device_type_of dfs with
            | .obj dtfs =>
              let sv := J.lookupF "latest_version" dtfs
              if updateCond sv lv then .exit
              else
                match J.lookupF "integrations" dfs with
                | some ints => .ok (some (J.obj (setKey sfs "integrations" ints)))
                | none => .ok none
            | _ => .raised
          | _ => .raised
        | _ => .raised

/-- The serial number one setup POST attempt yields, if any: the code needs
a 2xx/3xx status, a decodable body, and a truthy serial_number field; every
failure (RequestException, raise_for_status, decode error, AttributeError on
a non-dict body, falsy or missing serial) is caught by the two except
clauses of setup_device and leads to a retry. -/
def setupAttempt (r : Resp) : Option J :=
  match r with
  | .reqError => none
  | .httpResp status body =>
    if 400 ≤ status then none
    else
      match body with
      | none => none
      | some (.obj dfs) =>
        match J.lookupF "serial_number" dfs with
        | some serial => if pyTruthy serial then some serial else none
        | none => none
      | some _ => none

/-- The retry-forever loop of setup_device, run against a finite list of
request outcomes.  Returns the settings value returned by setup_device if a
response in the list succeeds (none means the loop is still retrying when
the list runs out), the number of setup request attempts made, and the list
of settings objects written by save_settings. -/
def setupLoop (sfs : List (String × J)) : List Resp → Option J × ℕ × List J
  | [] => (none, 0, [])
  | r :: rs =>
    match setupAttempt r with
    | some serial =>
      (some (J.obj (setKey sfs "serial_number" serial)), 1,
        [J.obj (setKey sfs "serial_number" serial)])
    | none =>
      let rec2 := setupLoop sfs rs
      (rec2.1, rec2.2.1 + 1, rec2.2.2)

/-- setup_device, lines 78-116 of the source, as a function of the settings
record loaded from disk (load_or_create_settings yields the parsed JSON
object, falling back to DEFAULT_SETTINGS when the file is missing or does
not parse; sfs is its field list) and of the request outcomes the retry
loop would see. -/
def setup_device (sfs : List (String × J)) (rs : List Resp) :
    Option J × ℕ × List J :=
  if (J.lookupF "serial_number" sfs).isSome then (some (J.obj sfs), 0, [])
  else setupLoop sfs rs

/-- RING_COOLDOWN from the source: 60 seconds. -/
def RING_COOLDOWN : ℚ := 60

/-- One entry of the settings' integration list, with the two fields the
ring handler reads: integration.get("type") and
integration.get("credentials", an empty dict).get("local_ip"). -/
structure Integration where
  type : String
  local_ip : Option String

/-- The integration scan of send_ring: if the settings have an integrations
key, take the first entry whose type is homewizard_socket and read its
local_ip; the loop breaks at that first entry whether or not it carries an
ip. -/
def find_homewizard_ip : Option (List Integration) → Option String
  | none => none
  | some l =>
    match l.find? (fun i => i.type == "homewizard_socket") with
    | some i => i.local_ip
    | none => none

/-- Observable actions of the ring handler, in program order: a
set_switch_state call with its partial-state payload, the start of a blink
thread, and the ring POST to the server with its status payload. -/
inductive RingEvent where
  | switchCall (power : Option Bool) (brightness : Option ℕ)
  | blinkStart (ip : String)
  | notify (status : String)
  deriving DecidableEq

/-- send_ring, lines 171-213 of the source, as a function of the
time.time() reading, the global last_ring_time, the integrations value of
the settings on disk, and whether the activation call to the switch
succeeds.  Returns the new last_ring_time and the events performed, in
order.  The final ring POST is attempted unconditionally once the gate is
passed; its own network failure is caught and swallowed, so it does not
affect the returned data. -/
def send_ring (now last : ℚ) (ints : Option (List Integration))
    (switchOk : Bool) : ℚ × List RingEvent :=
  if now - last < RING_COOLDOWN then (last, [])
  else
    match find_homewizard_ip ints with
    | some ip =>
      if switchOk then
        (now, [.switchCall (some true) (some 255), .blinkStart ip,
          .notify "active"])
      else
        (now, [.switchCall (some true) (some 255), .notify "error"])
    | none => (now, [.notify "inactive"])

/-- One press given to send_ring: its time.time() reading, the integrations
value read from the settings at that moment, and whether the activation
call would succeed. -/
structure Press where
  time : ℚ
  ints : Option (List Integration)
  switchOk : Bool

/-- A sequence of presses handled one after the other, threading the global
last_ring_time through; returns the final timestamp and, per press, its
time and the events it performed. -/
def run_presses : List Press → ℚ → ℚ × List (ℚ × List RingEvent)
  | [], last => (last, [])
  | p :: rest, last =>
    let r := send_ring p.time last p.ints p.switchOk
    let rec2 := run_presses rest r.1
    (rec2.1, (p.time, r.2) :: rec2.2)

/-- The times of the presses that produced any actuator or server effect. -/
def accepted_times (ps : List Press) (last : ℚ) : List ℚ :=
  ((run_presses ps last).2.filter (fun e => !e.2.isEmpty)).map Prod.fst

/-- One thread running the cooldown gate of send_ring, at interpreter-step
granularity.  Its time.time() reading is fixed on entry (now).  pc 0: about
to evaluate the comparison now - last_ring_time < RING_COOLDOWN against the
shared timestamp; pc 1: the comparison passed, the assignment
last_ring_time = now has not run yet; pc 2: done.  fired records whether
the thread went on to the actuator and server calls. -/
structure ThreadSt where
  now : ℚ
  pc : ℕ
  fired : Bool

/-- One interpreter step of a gate thread against the shared timestamp:
the comparison (a read) and the assignment (a write) are two separate
steps, as they are separate statements in the source with no lock held. -/
def threadStep (last : ℚ) (t : ThreadSt) : ℚ × ThreadSt :=
  match t.pc with
  | 0 =>
    if t.now - last < RING_COOLDOWN then (last, { t with pc := 2 })
    else (last, { t with pc := 1 })
  | 1 => (t.now, { t with pc := 2, fired := true })
  | _ => (last, t)

/-- Shared state of two racing ring handlers: the global last_ring_time and
the two threads (for example the GPIO callback and the manual command
listener). -/
structure RaceSt where
  last : ℚ
  a : ThreadSt
  b : ThreadSt

/-- Run one step of thread a (who = true) or thread b (who = false). -/
def raceStep (s : RaceSt) (who : Bool) : RaceSt :=
  if who then
    let r := threadStep s.last s.a
    { s with last := r.1, a := r.2 }
  else
    let r := threadStep s.last s.b
    { s with last := r.1, b := r.2 }

/-- Run the two threads under a given interleaving schedule. -/
def runSched : RaceSt → List Bool → RaceSt
  | s, [] => s
  | s, w :: ws => runSched (raceStep s w) ws

/-- Initial race state: both threads are about to run the gate, with their
own time readings, against a shared last_ring_time. -/
def mkRace (last n1 n2 : ℚ) : RaceSt :=
  { last := last
    a := { now := n1, pc := 0, fired := false }
    b := { now := n2, pc := 0, fired := false } }

/-- The while loop of blink_effect, lines 235-241 of the source, under
idealized timing: time.sleep(interval) advances the clock by exactly
interval and the calls take no time.  elapsed is time since entry, checked
against the duration before each sleep; after the sleep one brightness
command is sent, and on the first failed send the loop breaks.  ok idx
tells whether the idx-th set_switch_state call of this run succeeds.
Returns the brightness values sent, in order (a failed send is still a
command that was issued).  The source would loop forever on interval 0;
the model returns early there, and the claims assume a positive interval. -/
def blinkLoop (ok : ℕ → Bool) (duration interval : ℕ) (elapsed : ℕ)
    (is_dim : Bool) (idx : ℕ) : List ℕ :=
  if h : elapsed < duration ∧ 0 < interval then
    let b := if is_dim then 50 else 255
    if ok idx then
      b :: blinkLoop ok duration interval (elapsed + interval) (!is_dim) (idx + 1)
    else [b]
  else []
termination_by duration - elapsed
decreasing_by omega

/-- The brightness commands one blink_effect run issues, starting dim
(is_dim is initialized to true in the source). -/
def blinkBrightness (ok : ℕ → Bool) (duration interval : ℕ) : List ℕ :=
  blinkLoop ok duration interval 0 true 0

/-- The final best-effort power-off command sent after the loop, whose
result is not checked. -/
def powerOffCmd : RingEvent := .switchCall (some false) none

/-- blink_effect, lines 229-244 of the source (defaults: duration 60,
interval 2): the brightness commands of the loop followed by the single
final power-off command, which is issued on every exit path. -/
def blink_effect (ok : ℕ → Bool) (duration interval : ℕ) : List RingEvent :=
  (blinkBrightness ok duration interval).map
    (fun b => .switchCall none (some b)) ++ [powerOffCmd]

lemma send_ring_blocked (now last : ℚ) (ints : Option (List Integration))
    (ok : Bool) (h : now - last < RING_COOLDOWN) :
    send_ring now last ints ok = (last, []) := by
  unfold send_ring
  rw [if_pos h]

lemma send_ring_pass (now last : ℚ) (ints : Option (List Integration))
    (ok : Bool) (h : RING_COOLDOWN ≤ now - last) :
    (send_ring now last ints ok).1 = now ∧
    (send_ring now last ints ok).2 ≠ [] := by
  unfold send_ring
  rw [if_neg (not_lt.mpr h)]
  cases hf : find_homewizard_ip ints with
  | none => simp
  | some ip => cases ok <;> simp

lemma run_presses_cons (p : Press) (rest : List Press) (last : ℚ) :
    run_presses (p :: rest) last =
      ((run_presses rest (send_ring p.time last p.ints p.switchOk).1).1,
       (p.time, (send_ring p.time last p.ints p.switchOk).2) ::
       (run_presses rest (send_ring p.time last p.ints p.switchOk).1).2) := rfl

lemma accepted_times_cons (p : Press) (rest : List Press) (last : ℚ) :
    accepted_times (p :: rest) last =
      (if (send_ring p.time last p.ints p.switchOk).2.isEmpty then []
       else [p.time]) ++
      accepted_times rest (send_ring p.time last p.ints p.switchOk).1 := by
  unfold accepted_times
  rw [run_presses_cons]
  cases hE : (send_ring p.time last p.ints p.switchOk).2.isEmpty <;>
    simp [List.filter_cons, hE]

lemma accepted_inv : ∀ (ps : List Press) (last : ℚ),
    (∀ t ∈ accepted_times ps last, last + RING_COOLDOWN ≤ t) ∧
    List.Pairwise (fun a b => a + RING_COOLDOWN ≤ b)
      (accepted_times ps last) := by
  intro ps
  induction ps with
  | nil =>
    intro last
    constructor
    · intro t ht
      simp [accepted_times, run_presses] at ht
    · simp [accepted_times, run_presses]
  | cons p rest ih =>
    intro last
    by_cases hlt : p.time - last < RING_COOLDOWN
    · rw [accepted_times_cons, send_ring_blocked _ _ _ _ hlt]
      simpa using ih last
    · have hge : RING_COOLDOWN ≤ p.time - last := not_lt.mp hlt
      obtain ⟨h1, h2⟩ := send_ring_pass p.time last p.ints p.switchOk hge
      have hE : (send_ring p.time last p.ints p.switchOk).2.isEmpty = false := by
        cases hE2 : (send_ring p.time last p.ints p.switchOk).2.isEmpty
        · rfl
        · exact absurd (List.isEmpty_iff.mp hE2) h2
      rw [accepted_times_cons, h1, hE]
      simp only [Bool.false_eq_true, if_false, List.singleton_append]
      have hplast : last + RING_COOLDOWN ≤ p.time := by linarith
      obtain ⟨ihb, ihp⟩ := ih p.time
      constructor
      · intro t ht
        rcases List.mem_cons.mp ht with rfl | ht2
        · exact hplast
        · have hb := ihb t ht2
          have hc : (0:ℚ) < RING_COOLDOWN := by norm_num [RING_COOLDOWN]
          linarith
      · exact List.pairwise_cons.mpr ⟨fun b hb => ihb b hb, ihp⟩

lemma pairwise_count_window (w : ℚ) : ∀ (l : List ℚ),
    List.Pairwise (fun a b => a + RING_COOLDOWN ≤ b) l →
    (l.countP (fun t => decide (w ≤ t) && decide (t < w + RING_COOLDOWN))) ≤ 1 := by
  intro l
  induction l with
  | nil => simp
  | cons a l ih =>
    intro hp
    obtain ⟨ha, hl⟩ := List.pairwise_cons.mp hp
    rw [List.countP_cons]
    cases hc : (decide (w ≤ a) && decide (a < w + RING_COOLDOWN)) with
    | false =>
      simp only [hc, if_false, Bool.false_eq_true, add_zero]
      exact ih hl
    | true =>
      have hA : w ≤ a := by
        have := (Bool.and_eq_true _ _).mp hc
        exact of_decide_eq_true this.1
      have hz : l.countP
          (fun t => decide (w ≤ t) && decide (t < w + RING_COOLDOWN)) = 0 := by
        rw [List.countP_eq_zero]
        intro b hb
        have h60 := ha b hb
        simp only [Bool.and_eq_true, decide_eq_true_eq, not_and, not_lt]
        intro _
        linarith
      simp [hc, hz]

/-- Claim C1: send_ring discards a press entirely (no actuator call, no
server call, timestamp unchanged) when the elapsed time since the last
accepted ring is under the 60-second cooldown; otherwise it advances
last_ring_time to the current reading before any further processing and
then performs effects; consequently, over any sequence of presses, at most
one press in any 60-second sliding window produces an actuator or server
effect. -/
theorem ring_cooldown_gate :
    (∀ (now last : ℚ) (ints : Option (List Integration)) (ok : Bool),
        now - last < RING_COOLDOWN →
        send_ring now last ints ok = (last, [])) ∧
    (∀ (now last : ℚ) (ints : Option (List Integration)) (ok : Bool),
        RING_COOLDOWN ≤ now - last →
        (send_ring now last ints ok).1 = now ∧
        (send_ring now last ints ok).2 ≠ []) ∧
    (∀ (ps : List Press) (last w : ℚ),
        ((accepted_times ps last).countP
          (fun t => decide (w ≤ t) && decide (t < w + RING_COOLDOWN))) ≤ 1) :=
  ⟨fun now last ints ok h => send_ring_blocked now last ints ok h,
   fun now last ints ok h => send_ring_pass now last ints ok h,
   fun ps last w => pairwise_count_window w _ (accepted_inv ps last).2⟩

/-- Witness for C1 at concrete inputs: a press 30s after the last accepted
ring is discarded, and a press 100s after it advances the timestamp. -/
theorem ring_cooldown_gate_witness :
    send_ring 30 0 none true = (0, []) ∧
    (send_ring 100 0 none true).1 = 100 :=
  ⟨ring_cooldown_gate.1 30 0 none true (by norm_num [RING_COOLDOWN]),
   (ring_cooldown_gate.2.1 100 0 none true (by norm_num [RING_COOLDOWN])).1⟩

/-- Claim C9: once a press passes the cooldown gate, last_ring_time is
advanced to the press time no matter what the integration lookup and
activation later determine; in particular a press that ends with status
inactive (no homewizard integration) or error (activation failure) still
consumes the full window, and every subsequent press within 60 seconds of
it is discarded. -/
theorem ring_press_consumes_window :
    ∀ (now last : ℚ) (ints : Option (List Integration)) (ok : Bool),
      RING_COOLDOWN ≤ now - last →
      (send_ring now last ints ok).1 = now ∧
      (find_homewizard_ip ints = none →
        (send_ring now last ints ok).2 = [.notify "inactive"]) ∧
      (∀ ip, find_homewizard_ip ints = some ip → ok = false →
        (send_ring now last ints ok).2 =
          [.switchCall (some true) (some 255), .notify "error"]) ∧
      (∀ (t : ℚ) (ints2 : Option (List Integration)) (ok2 : Bool),
        t - now < RING_COOLDOWN →
        send_ring t now ints2 ok2 = (now, [])) := by
  intro now last ints ok h
  refine ⟨(send_ring_pass now last ints ok h).1, ?_, ?_, ?_⟩
  · intro hf
    unfold send_ring
    rw [if_neg (not_lt.mpr h), hf]
  · intro ip hf hok
    subst hok
    unfold send_ring
    rw [if_neg (not_lt.mpr h), hf]
    rfl
  · intro t ints2 ok2 ht
    exact send_ring_blocked t now ints2 ok2 ht

/-- Witness for C9 at concrete inputs: a gate-passing press with no
integration configured advances the timestamp, notifies status inactive,
and a follow-up press 20s later is discarded. -/
theorem ring_press_consumes_window_witness :
    (send_ring 100 0 none true).1 = 100 ∧
    (send_ring 100 0 none true).2 = [.notify "inactive"] ∧
    send_ring 120 100 none true = (100, []) := by
  obtain ⟨h1, h2, _, h4⟩ :=
    ring_press_consumes_window 100 0 none true (by norm_num [RING_COOLDOWN])
  exact ⟨h1, h2 rfl, h4 120 none true (by norm_num [RING_COOLDOWN])⟩

/-- Counterexample to claim C2: the cooldown comparison and the timestamp
assignment in send_ring are two separate statements on the shared global
with no lock, so an interleaving of two simultaneous presses (both reading
time 100 with last_ring_time 0) lets both threads pass the gate and both
produce effects, two rings inside one 60-second window.  An atomic
check-and-set would allow at most one. -/
theorem ring_checkset_race_cex :
    (runSched (mkRace 0 100 100) [true, false, true, false]).a.fired = true ∧
    (runSched (mkRace 0 100 100) [true, false, true, false]).b.fired = true ∧
    (mkRace 0 100 100).a.now = (mkRace 0 100 100).b.now := by
  norm_num [runSched, raceStep, threadStep, mkRace, RING_COOLDOWN]

/-- Claim C2 as amended: the check and the set are separate non-atomic
steps; only when the two handlers run serialized (each thread's comparison
immediately followed by its own assignment, with no interleaving between
them) does at-most-one-per-window hold: if both serialized presses fire,
the second press time is at least 60 seconds after the first. -/
theorem ring_checkset_serialized :
    ∀ (last n1 n2 : ℚ),
      (runSched (mkRace last n1 n2) [true, true, false, false]).a.fired = true →
      (runSched (mkRace last n1 n2) [true, true, false, false]).b.fired = true →
      RING_COOLDOWN ≤ n2 - n1 := by
  intro last n1 n2
  by_cases h1 : n1 - last < RING_COOLDOWN
  · by_cases h2 : n2 - last < RING_COOLDOWN
    · simp [runSched, raceStep, threadStep, mkRace, h1, h2]
    · simp [runSched, raceStep, threadStep, mkRace, h1, h2]
  · by_cases h2 : n2 - n1 < RING_COOLDOWN
    · simp [runSched, raceStep, threadStep, mkRace, h1, h2]
    · intro _ _
      exact not_lt.mp h2

/-- Witness for the amended C2 at concrete inputs: serialized presses at
times 100 and 160 over last_ring_time 0 both fire, and indeed the second
is a full cooldown window after the first. -/
theorem ring_checkset_serialized_witness :
    RING_COOLDOWN ≤ (160 : ℚ) - 100 :=
  ring_checkset_serialized 0 100 160
    (by norm_num [runSched, raceStep, threadStep, mkRace, RING_COOLDOWN])
    (by norm_num [runSched, raceStep, threadStep, mkRace, RING_COOLDOWN])

lemma lookup_setKey : ∀ (fs : List (String × J)) (k : String) (v : J),
    J.lookupF k (setKey fs k v) = some v := by
  intro fs k v
  induction fs with
  | nil => simp [setKey, J.lookupF]
  | cons p rest ih =>
    obtain ⟨k2, w⟩ := p
    by_cases h : k2 = k
    · simp [setKey, h, J.lookupF]
    · simp [setKey, h, J.lookupF, ih]

lemma setupLoop_result : ∀ (rs : List Resp) (sfs : List (String × J)) (x : J),
    (setupLoop sfs rs).1 = some x →
    ∃ serial, x = J.obj (setKey sfs "serial_number" serial) := by
  intro rs
  induction rs with
  | nil =>
    intro sfs x h
    simp [setupLoop] at h
  | cons r rs ih =>
    intro sfs x h
    unfold setupLoop at h
    cases ha : setupAttempt r with
    | some serial =>
      rw [ha] at h
      simp at h
      exact ⟨serial, h.symm⟩
    | none =>
      rw [ha] at h
      exact ih sfs x h

/-- Claim C3: setup_device is idempotent and side-effect-free once the
settings record holds a serial_number key: it returns those settings with
zero setup requests and zero writes; and after any call that returns
settings (whether they were already registered or registration just
succeeded), a second call issues no setup request and no write. -/
theorem setup_device_idempotent :
    (∀ (sfs : List (String × J)) (rs : List Resp),
        (J.lookupF "serial_number" sfs).isSome = true →
        setup_device sfs rs = (some (J.obj sfs), 0, [])) ∧
    (∀ (sfs fs2 : List (String × J)) (rs rs2 : List Resp),
        (setup_device sfs rs).1 = some (J.obj fs2) →
        setup_device fs2 rs2 = (some (J.obj fs2), 0, [])) := by
  have hbase : ∀ (sfs : List (String × J)) (rs : List Resp),
      (J.lookupF "serial_number" sfs).isSome = true →
      setup_device sfs rs = (some (J.obj sfs), 0, []) := by
    intro sfs rs h
    unfold setup_device
    rw [if_pos h]
  refine ⟨hbase, ?_⟩
  intro sfs fs2 rs rs2 h
  by_cases hs : (J.lookupF "serial_number" sfs).isSome = true
  · rw [hbase sfs rs hs] at h
    simp at h
    obtain rfl := h
    exact hbase _ rs2 hs
  · unfold setup_device at h
    rw [if_neg hs] at h
    obtain ⟨serial, heq⟩ := setupLoop_result rs sfs _ h
    have heq2 : fs2 = setKey sfs "serial_number" serial := by
      injection heq
    subst heq2
    exact hbase _ rs2 (by rw [lookup_setKey]; rfl)

/-- Witness for C3 at concrete inputs: an already-registered record is
returned untouched with no request, and a record registered by one
successful setup response is returned untouched by a second call. -/
theorem setup_device_idempotent_witness :
    setup_device [("serial_number", J.str "ABC123")] [] =
      (some (J.obj [("serial_number", J.str "ABC123")]), 0, []) ∧
    setup_device (setKey DEFAULT_SETTINGS "serial_number" (J.str "ABC123")) [] =
      (some (J.obj (setKey DEFAULT_SETTINGS "serial_number" (J.str "ABC123"))),
        0, []) :=
  ⟨setup_device_idempotent.1 [("serial_number", J.str "ABC123")] [] rfl,
   setup_device_idempotent.2 DEFAULT_SETTINGS
     (setKey DEFAULT_SETTINGS "serial_number" (J.str "ABC123"))
     [Resp.httpResp 200 (some (J.obj [("serial_number", J.str "ABC123")]))]
     [] rfl⟩

/-- Claim C4: when a completed heartbeat cycle's decoded body carries an
integrations field and the update branch is not taken, the local settings'
integration value is replaced wholesale by the server-supplied value,
whatever the prior local value was, and the updated record is persisted
(it is the object handed to save_settings); looking the field up in the
persisted record yields exactly the server's list. -/
theorem heartbeat_integrations_replace :
    ∀ (sfs dfs dtfs : List (String × J)) (st : ℕ) (ints : J),
      st < 400 →
      device_type_of dfs = J.obj dtfs →
      updateCond (J.lookupF "latest_version" dtfs)
        (J.lookupF "version" sfs) = false →
      J.lookupF "integrations" dfs = some ints →
      send_heartbeat (J.obj sfs) (.httpResp st (some (J.obj dfs))) =
        .ok (some (J.obj (setKey sfs "integrations" ints))) ∧
      J.lookupF "integrations" (setKey sfs "integrations" ints) = some ints := by
  intro sfs dfs dtfs st ints hst hdt hcond hints
  have hst2 : ¬ 400 ≤ st := by omega
  refine ⟨?_, lookup_setKey sfs "integrations" ints⟩
  simp [send_heartbeat, hst2, hdt, hcond, hints]

/-- Witness for C4 at the spec's example: prior local list [A, B], server
list [C]; the persisted record carries exactly [C]. -/
theorem heartbeat_integrations_replace_witness :
    send_heartbeat
        (J.obj [("version", J.str "0.1"),
                ("integrations", J.arr [J.str "A", J.str "B"])])
        (.httpResp 200 (some (J.obj [("integrations", J.arr [J.str "C"])]))) =
      .ok (some (J.obj (setKey
        [("version", J.str "0.1"),
         ("integrations", J.arr [J.str "A", J.str "B"])]
        "integrations" (J.arr [J.str "C"])))) ∧
    J.lookupF "integrations" (setKey
        [("version", J.str "0.1"),
         ("integrations", J.arr [J.str "A", J.str "B"])]
        "integrations" (J.arr [J.str "C"])) = some (J.arr [J.str "C"]) :=
  heartbeat_integrations_replace
    [("version", J.str "0.1"), ("integrations", J.arr [J.str "A", J.str "B"])]
    [("integrations", J.arr [J.str "C"])]
    [] 200 (J.arr [J.str "C"]) (by omega) rfl rfl rfl

/-- Counterexample to claim C5: a heartbeat cycle whose response carries a
present, non-empty latest_version of 2.0 that differs from the local
version (here the empty string) does not invoke the Updater: because the
empty local version is falsy, the code skips the update branch, continues
the cycle, and persists the integrations field. -/
theorem heartbeat_update_skipped_cex :
    HBResult.isExit (send_heartbeat
        (J.obj [("device_type_id", J.num 1), ("version", J.str "")])
        (.httpResp 200 (some (J.obj
          [("device_type", J.obj [("latest_version", J.str "2.0")]),
           ("integrations", J.arr [])])))) = false ∧
    send_heartbeat
        (J.obj [("device_type_id", J.num 1), ("version", J.str "")])
        (.httpResp 200 (some (J.obj
          [("device_type", J.obj [("latest_version", J.str "2.0")]),
           ("integrations", J.arr [])]))) =
      .ok (some (J.obj [("device_type_id", J.num 1), ("version", J.str ""),
        ("integrations", J.arr [])])) :=
  ⟨rfl, rfl⟩

/-- Claim C5 as amended: when a completed heartbeat response carries a
truthy (present, non-empty) latest_version, the local version is also
present and truthy, and the two differ, the cycle invokes trigger_update,
which ends the process, so nothing further (in particular no integrations
processing and no write) happens in that cycle. -/
theorem heartbeat_update_exits :
    ∀ (sfs dfs dtfs : List (String × J)) (st : ℕ) (lv sv : J),
      st < 400 →
      J.lookupF "version" sfs = some lv →
      pyTruthy lv = true →
      device_type_of dfs = J.obj dtfs →
      J.lookupF "latest_version" dtfs = some sv →
      pyTruthy sv = true →
      J.beq sv lv = false →
      send_heartbeat (J.obj sfs) (.httpResp st (some (J.obj dfs))) = .exit := by
  intro sfs dfs dtfs st lv sv hst hlv htl hdt hsv hts hne
  have hst2 : ¬ 400 ≤ st := by omega
  have hcond : updateCond (J.lookupF "latest_version" dtfs)
      (J.lookupF "version" sfs) = true := by
    rw [hsv, hlv]
    simp [updateCond, pyTruthyO, beqO, htl, hts, hne]
  simp [send_heartbeat, hst2, hdt, hcond]

/-- Witness for the amended C5 at the spec's example: local version 0.1,
server latest_version 2.0; the cycle ends in the Updater exit. -/
theorem heartbeat_update_exits_witness :
    send_heartbeat (J.obj [("version", J.str "0.1")])
        (.httpResp 200 (some (J.obj
          [("device_type", J.obj [("latest_version", J.str "2.0")])]))) =
      .exit :=
  heartbeat_update_exits [("version", J.str "0.1")]
    [("device_type", J.obj [("latest_version", J.str "2.0")])]
    [("latest_version", J.str "2.0")] 200 (J.str "0.1") (J.str "2.0")
    (by omega) rfl rfl rfl rfl rfl rfl

/-- Claim C8: connection failures, timeouts, HTTP error statuses and
undecodable bodies are all swallowed by send_heartbeat, but a well-formed
2xx response whose body is valid JSON of an unexpected shape (here the
string ok, on which the code calls .get) raises an uncaught AttributeError
that escapes send_heartbeat and aborts the enclosing forever-loop. -/
theorem heartbeat_unexpected_shape_raises :
    send_heartbeat (J.obj DEFAULT_SETTINGS)
        (.httpResp 200 (some (J.str "ok"))) = .raised ∧
    send_heartbeat (J.obj DEFAULT_SETTINGS) .reqError = .ok none ∧
    send_heartbeat (J.obj DEFAULT_SETTINGS) (.httpResp 500 none) = .ok none ∧
    send_heartbeat (J.obj DEFAULT_SETTINGS) (.httpResp 200 none) = .ok none :=
  ⟨rfl, rfl, rfl, rfl⟩

/-- Claim C6: blink_effect with duration 6 and interval 2 issues exactly
three brightness commands, alternating 50, 255, 50 starting dim, followed
by exactly one final power-off command. -/
theorem blink_6_2_commands :
    blink_effect (fun _ => true) 6 2 =
      [.switchCall none (some 50), .switchCall none (some 255),
       .switchCall none (some 50), .switchCall (some false) none] := by
  simp [blink_effect, blinkBrightness, blinkLoop, powerOffCmd]

lemma blinkLoop_len_fail (ok : ℕ → Bool) (d i k : ℕ) (hk : ok k = false) :
    ∀ (n e idx : ℕ) (dim : Bool), d - e ≤ n → idx ≤ k →
      (blinkLoop ok d i e dim idx).length ≤ k + 1 - idx := by
  intro n
  induction n with
  | zero =>
    intro e idx dim hde hik
    rw [blinkLoop, dif_neg (by omega : ¬(e < d ∧ 0 < i))]
    simp
  | succ n ih =>
    intro e idx dim hde hik
    by_cases hc : e < d ∧ 0 < i
    · rw [blinkLoop, dif_pos hc]
      cases hok : ok idx with
      | false =>
        simp only [hok]
        simp
        omega
      | true =>
        simp only [hok, if_true]
        have hik2 : idx + 1 ≤ k := by
          rcases Nat.eq_or_lt_of_le hik with heq | hlt
          · subst heq
            rw [hk] at hok
            exact Bool.noConfusion hok
          · omega
        have hrec := ih (e + i) (idx + 1) (!dim) (by omega) hik2
        simp only [List.length_cons]
        omega
    · rw [blinkLoop, dif_neg hc]
      simp

lemma blink_count_off (ok : ℕ → Bool) (d i : ℕ) :
    (blink_effect ok d i).count powerOffCmd = 1 := by
  unfold blink_effect
  rw [List.count_append]
  have h0 : ((blinkBrightness ok d i).map
      (fun b => RingEvent.switchCall none (some b))).count powerOffCmd = 0 := by
    rw [List.count_eq_zero]
    intro hmem
    obtain ⟨b, _, hb⟩ := List.mem_map.mp hmem
    simp [powerOffCmd] at hb
  rw [h0]
  simp

/-- Claim C7: in any blink run with a failing brightness call (ok k is
false for the k-th set_switch_state call of the run), at most k + 1
brightness commands are issued, so nothing follows the first failed one;
and the run still ends with the single final power-off command, exactly as
on normal expiry. -/
theorem blink_failure_stops :
    ∀ (ok : ℕ → Bool) (d i k : ℕ), 0 < i → ok k = false →
      (blinkBrightness ok d i).length ≤ k + 1 ∧
      (blink_effect ok d i).getLast? = some powerOffCmd ∧
      (blink_effect ok d i).count powerOffCmd = 1 := by
  intro ok d i k hi hk
  refine ⟨?_, List.getLast?_concat _, blink_count_off ok d i⟩
  have h := blinkLoop_len_fail ok d i k hk d 0 0 true (by omega) (by omega)
  simpa [blinkBrightness] using h

/-- Witness for C7 at concrete inputs: with every call failing, the run of
duration 6 and interval 2 issues at most one brightness command and ends
in the single power-off. -/
theorem blink_failure_stops_witness :
    (blinkBrightness (fun _ => false) 6 2).length ≤ 1 ∧
    (blink_effect (fun _ => false) 6 2).getLast? = some powerOffCmd ∧
    (blink_effect (fun _ => false) 6 2).count powerOffCmd = 1 :=
  blink_failure_stops (fun _ => false) 6 2 0 (by omega) rfl

lemma blinkLoop_len_bound (ok : ℕ → Bool) (d i : ℕ) (hi : 0 < i) :
    ∀ (n e idx : ℕ) (dim : Bool), d - e ≤ n →
      (blinkLoop ok d i e dim idx).length ≤ (d - e + i - 1) / i := by
  intro n
  induction n with
  | zero =>
    intro e idx dim hde
    rw [blinkLoop, dif_neg (by omega : ¬(e < d ∧ 0 < i))]
    simp
  | succ n ih =>
    intro e idx dim hde
    by_cases hc : e < d ∧ 0 < i
    · rw [blinkLoop, dif_pos hc]
      have key : (d - (e + i) + i - 1) / i + 1 ≤ (d - e + i - 1) / i := by
        by_cases hle : i ≤ d - e
        · have h1 : d - (e + i) + i - 1 = d - e - 1 := by omega
          have h2 : d - e + i - 1 = (d - e - 1) + i := by omega
          rw [h1, h2, Nat.add_div_right _ hi]
        · have h1 : d - (e + i) + i - 1 = i - 1 := by omega
          have h2 : (i - 1) / i = 0 := Nat.div_eq_of_lt (by omega)
          have h3 : 1 ≤ (d - e + i - 1) / i := by
            rw [Nat.le_div_iff_mul_le hi]
            omega
          rw [h1, h2]
          simpa using h3
      cases hok : ok idx with
      | false =>
        simp only [hok]
        simp
        rw [Nat.le_div_iff_mul_le hi]
        omega
      | true =>
        simp only [hok, if_true]
        have hrec := ih (e + i) (idx + 1) (!dim) (by omega)
        simp only [List.length_cons]
        exact le_trans (Nat.add_le_add_right hrec 1) key
    · rw [blinkLoop, dif_neg hc]
      simp

/-- Claim C10: for every positive interval and any duration, blink_effect
terminates with a bounded command trace: at most the ceiling of duration
over interval brightness commands (for naturals, (d + i - 1) / i), plus
exactly one final power-off command. -/
theorem blink_bounded :
    ∀ (ok : ℕ → Bool) (d i : ℕ), 0 < i →
      (blinkBrightness ok d i).length ≤ (d + i - 1) / i ∧
      (blink_effect ok d i).length = (blinkBrightness ok d i).length + 1 ∧
      (blink_effect ok d i).count powerOffCmd = 1 := by
  intro ok d i hi
  refine ⟨?_, ?_, blink_count_off ok d i⟩
  · have h := blinkLoop_len_bound ok d i hi d 0 0 true (by omega)
    simpa [blinkBrightness] using h
  · unfold blink_effect
    simp

/-- Witness for C10 at concrete inputs: duration 6, interval 2, all calls
succeeding: at most three brightness commands plus the one power-off. -/
theorem blink_bounded_witness :
    (blinkBrightness (fun _ => true) 6 2).length ≤ (6 + 2 - 1) / 2 ∧
    (blink_effect (fun _ => true) 6 2).length =
      (blinkBrightness (fun _ => true) 6 2).length + 1 ∧
    (blink_effect (fun _ => true) 6 2).count powerOffCmd = 1 :=
  blink_bounded (fun _ => true) 6 2 (by omega)

end DeviceBoot
